import Mathlib

/-!
Shallow embedding of the tic-tac-toe game logic from `src/index.js`
(current revision) and the earlier snapshot of the same file.

The board is a JS array of 9 entries holding `'X'`, `'O'` or `null`;
we model it as a `List (Option Player)`.  JS reads out of bounds give
`undefined`, which behaves like `null` in every guard the code uses,
so indexing is modelled with `List.getD _ none`.
-/

/-- A player's mark: the JS strings `'X'` and `'O'`. -/
inductive Player where
  | X : Player
  | O : Player
deriving DecidableEq, Repr

instance : Fintype Player :=
  ⟨⟨{Player.X, Player.O}, by decide⟩, fun x => by cases x <;> decide⟩

/-- A board snapshot: the JS `squares` array (`'X'`, `'O'` or `null` per cell). -/
abbrev Board := List (Option Player)

/-- The result object of the current `calculateWinner`:
`{ player: squares[a], squares: lines[i] }`. -/
structure WinnerResult where
  player : Player
  squares : List Nat
deriving DecidableEq, Repr

/-- The eight fixed winning triples, in the order of the `lines` array in
`calculateWinner` (rows, columns, diagonals). -/
def winLines : List (Nat × Nat × Nat) :=
  [(0, 1, 2), (3, 4, 5), (6, 7, 8),
   (0, 3, 6), (1, 4, 7), (2, 5, 8),
   (0, 4, 8), (2, 4, 6)]

/-- One iteration of the loop body of the current `calculateWinner`:
`squares[a] && squares[a] === squares[b] && squares[a] === squares[c]`,
returning `{ player, squares }` when the triple matches. -/
def checkLine (squares : Board) (line : Nat × Nat × Nat) : Option WinnerResult :=
  match squares.getD line.1 none with
  | none => none
  | some p =>
    if squares.getD line.2.1 none = some p ∧ squares.getD line.2.2 none = some p then
      some ⟨p, [line.1, line.2.1, line.2.2]⟩
    else
      none

/-- `calculateWinner` from the current `src/index.js`: scan the eight lines in
order and return the first matching triple's result object, else `null`. -/
def calculateWinner (squares : Board) : Option WinnerResult :=
  winLines.findSome? (checkLine squares)

/-- One iteration of the loop body of the older snapshot's `calculateWinner`,
which returns just `squares[a]` on a match. -/
def checkLineOld (squares : Board) (line : Nat × Nat × Nat) : Option Player :=
  match squares.getD line.1 none with
  | none => none
  | some p =>
    if squares.getD line.2.1 none = some p ∧ squares.getD line.2.2 none = some p then
      some p
    else
      none

/-- `calculateWinner` from the older snapshot (`src/unnamed/part_000`):
same scan, but returns only the winning player. -/
def calculateWinnerOld (squares : Board) : Option Player :=
  winLines.findSome? (checkLineOld squares)

/-- `oneDimToTwoDimCoor` from `src/index.js`: convert a 0-based linear cell
index to a 1-based `[row, col]` pair. -/
def oneDimToTwoDimCoor (i : Nat) : List Nat :=
  if i < 3 then [1, i + 1]
  else if i < 6 then [2, i - 2]
  else [3, i - 5]

/-- One entry of `this.state.history`: `{ squares, move, player }`. -/
structure HistEntry where
  squares : Board
  move : List Nat
  player : Option Player
deriving DecidableEq, Repr

/-- The fields of `this.state` in the `Game` component. -/
structure GameState where
  history : List HistEntry
  stepNumber : Nat
  xIsNext : Bool
  sortAscending : Bool
deriving DecidableEq, Repr

/-- The state built by the `Game` constructor. -/
def initialState : GameState :=
  { history := [{ squares := List.replicate 9 none, move := [], player := none }]
    stepNumber := 0
    xIsNext := true
    sortAscending := true }

/-- The spec's `applyMove` contract, read off lines 117-122 of
`Game.handleClick`: reject (`none`) when `calculateWinner(squares)` is truthy
or `squares[i]` is truthy, otherwise produce the copied array with
`squares[i] = mark`. -/
def applyMove (squares : Board) (i : Nat) (p : Player) : Option Board :=
  if (calculateWinner squares).isSome ∨ (squares.getD i none).isSome then
    none
  else
    some (squares.set i (some p))

/-- The history entry at the cursor: `history[stepNumber]`. -/
def currentEntry (st : GameState) : HistEntry :=
  st.history.getD st.stepNumber { squares := [], move := [], player := none }

/-- The mark the next click places: `this.state.xIsNext ? 'X' : 'O'`. -/
def nextMark (st : GameState) : Player :=
  if st.xIsNext then Player.X else Player.O

/-- `Game.handleClick(i)`: truncate history to `stepNumber + 1` entries, look
at the last snapshot, bail out if the game is over or the cell is taken, else
append the new entry and advance the step.  The `none` branch of the
`getLast?` match corresponds to an empty (truncated) history, where the JS
code would throw before any state change; it never occurs in reachable
states. -/
def handleClick (st : GameState) (i : Nat) : GameState :=
  match (st.history.take (st.stepNumber + 1)).getLast? with
  | none => st
  | some current =>
    match applyMove current.squares i (nextMark st) with
    | none => st
    | some squares =>
      { st with
        history := st.history.take (st.stepNumber + 1) ++
          [{ squares := squares,
             move := oneDimToTwoDimCoor i,
             player := some (nextMark st) }]
        stepNumber := (st.history.take (st.stepNumber + 1)).length
        xIsNext := !st.xIsNext }

/-- `Game.jumpTo(step)`: set the cursor and recompute `xIsNext` from the
parity of `step`; no range check is performed. -/
def jumpTo (st : GameState) (step : Nat) : GameState :=
  { st with
    stepNumber := step
    xIsNext := decide (step % 2 = 0) }

/-- `Game.sort()`: flip the display-order flag. -/
def toggleSort (st : GameState) : GameState :=
  { st with sortAscending := !st.sortAscending }

/-- States reachable from the constructor state through the operations the
rendered UI actually wires up: `handleClick(i)` with `i = row*3 + col`,
`row, col ∈ {0,1,2}` (so `i < 9`), `jumpTo(move)` with `move` an index of the
rendered `history` list (so `move < history.length`), and the sort toggle. -/
inductive Reachable : GameState → Prop where
  | init : Reachable initialState
  | click {st : GameState} (i : Nat) :
      Reachable st → i < 9 → Reachable (handleClick st i)
  | jump {st : GameState} (s : Nat) :
      Reachable st → s < st.history.length → Reachable (jumpTo st s)
  | sort {st : GameState} :
      Reachable st → Reachable (toggleSort st)

/-- The spec's `winsLine`: all three cells of the triple hold `p`'s mark. -/
def winsLine (s : Board) (l : Nat × Nat × Nat) (p : Player) : Prop :=
  s.getD l.1 none = some p ∧ s.getD l.2.1 none = some p ∧ s.getD l.2.2 none = some p

instance (s : Board) (l : Nat × Nat × Nat) (p : Player) : Decidable (winsLine s l p) :=
  inferInstanceAs (Decidable (_ ∧ _ ∧ _))

/-- Scenario 3's full drawn board `[A,B,A,B,A,B,B,A,B]`. -/
def drawBoard : Board :=
  [some Player.X, some Player.O, some Player.X,
   some Player.O, some Player.X, some Player.O,
   some Player.O, some Player.X, some Player.O]

/-- C8: for every cell index `i < 9`, `oneDimToTwoDimCoor` returns the
1-based pair `[i / 3 + 1, i % 3 + 1]`. -/
theorem oneDimToTwoDimCoor_eq (i : Nat) (hi : i < 9) :
    oneDimToTwoDimCoor i = [i / 3 + 1, i % 3 + 1] := by
  interval_cases i <;> rfl

/-- Witness for C8 at the claim's sample points 0, 4 and 8. -/
theorem oneDimToTwoDimCoor_eq_witness :
    oneDimToTwoDimCoor 0 = [1, 1] ∧ oneDimToTwoDimCoor 4 = [2, 2] ∧
      oneDimToTwoDimCoor 8 = [3, 3] :=
  ⟨oneDimToTwoDimCoor_eq 0 (by decide),
   (oneDimToTwoDimCoor_eq 4 (by decide)).trans (by decide),
   (oneDimToTwoDimCoor_eq 8 (by decide)).trans (by decide)⟩

/-- C9: `calculateWinner` is deterministic — two invocations on the same
snapshot return the same result. -/
theorem calculateWinner_deterministic (s : Board) :
    calculateWinner s = calculateWinner s := rfl

lemma checkLine_none (s : Board) (l : Nat × Nat × Nat)
    (h : s.getD l.1 none = none) : checkLine s l = none := by
  unfold checkLine
  rw [h]

lemma checkLine_some (s : Board) (l : Nat × Nat × Nat) (p : Player)
    (h : s.getD l.1 none = some p) :
    checkLine s l =
      if s.getD l.2.1 none = some p ∧ s.getD l.2.2 none = some p then
        some ⟨p, [l.1, l.2.1, l.2.2]⟩
      else none := by
  unfold checkLine
  rw [h]

lemma checkLineOld_none (s : Board) (l : Nat × Nat × Nat)
    (h : s.getD l.1 none = none) : checkLineOld s l = none := by
  unfold checkLineOld
  rw [h]

lemma checkLineOld_some (s : Board) (l : Nat × Nat × Nat) (p : Player)
    (h : s.getD l.1 none = some p) :
    checkLineOld s l =
      if s.getD l.2.1 none = some p ∧ s.getD l.2.2 none = some p then
        some p
      else none := by
  unfold checkLineOld
  rw [h]

lemma checkLine_eq_none_iff (s : Board) (l : Nat × Nat × Nat) :
    checkLine s l = none ↔ ∀ p : Player, ¬ winsLine s l p := by
  cases h : s.getD l.1 none with
  | none =>
    rw [checkLine_none s l h]
    refine ⟨fun _ p hp => ?_, fun _ => rfl⟩
    obtain ⟨h1, _, _⟩ := hp
    rw [h] at h1
    exact Option.noConfusion h1
  | some p =>
    rw [checkLine_some s l p h]
    by_cases hcond : s.getD l.2.1 none = some p ∧ s.getD l.2.2 none = some p
    · rw [if_pos hcond]
      refine ⟨fun hfalse => Option.noConfusion hfalse, fun hall => ?_⟩
      exact absurd ⟨h, hcond.1, hcond.2⟩ (hall p)
    · rw [if_neg hcond]
      refine ⟨fun _ q hq => ?_, fun _ => rfl⟩
      obtain ⟨hq1, hq2, hq3⟩ := hq
      rw [h] at hq1
      injection hq1 with hq1
      subst hq1
      exact hcond ⟨hq2, hq3⟩

lemma checkLine_eq_some (s : Board) (l : Nat × Nat × Nat) (r : WinnerResult)
    (h : checkLine s l = some r) :
    winsLine s l r.player ∧ r.squares = [l.1, l.2.1, l.2.2] := by
  cases hl : s.getD l.1 none with
  | none =>
    rw [checkLine_none s l hl] at h
    exact Option.noConfusion h
  | some p =>
    rw [checkLine_some s l p hl] at h
    by_cases hcond : s.getD l.2.1 none = some p ∧ s.getD l.2.2 none = some p
    · rw [if_pos hcond] at h
      cases h
      exact ⟨⟨hl, hcond.1, hcond.2⟩, rfl⟩
    · rw [if_neg hcond] at h
      exact Option.noConfusion h

/-- C2: `calculateWinner` checks exactly the eight fixed triples of
`winLines` in order: it returns `none` iff no triple has its three cells
non-empty and mutually equal, and when it returns a result, that result is
the player and the line of the first qualifying triple — no triple earlier
in the list qualifies. -/
theorem calculateWinner_first_match (s : Board) :
    (calculateWinner s = none ↔ ∀ l ∈ winLines, ∀ p : Player, ¬ winsLine s l p)
    ∧ ∀ r : WinnerResult, calculateWinner s = some r →
        ∃ pre l post, winLines = pre ++ l :: post
          ∧ winsLine s l r.player
          ∧ r.squares = [l.1, l.2.1, l.2.2]
          ∧ ∀ l' ∈ pre, ∀ p : Player, ¬ winsLine s l' p := by
  constructor
  · rw [calculateWinner, List.findSome?_eq_none_iff]
    constructor
    · intro hall l hl
      exact (checkLine_eq_none_iff s l).mp (hall l hl)
    · intro hall l hl
      exact (checkLine_eq_none_iff s l).mpr (hall l hl)
  · intro r hr
    rw [calculateWinner, List.findSome?_eq_some_iff] at hr
    obtain ⟨pre, l, post, heq, hsome, hpre⟩ := hr
    obtain ⟨hw, hsq⟩ := checkLine_eq_some s l r hsome
    exact ⟨pre, l, post, heq, hw, hsq,
      fun l' hl' => (checkLine_eq_none_iff s l').mp (hpre l' hl')⟩

/-- Witness for C2: Scenario 3's full drawn board yields `none` and indeed no
triple qualifies; the board `[A,A,A,_,...]` yields `A` on line `[0,1,2]`. -/
theorem calculateWinner_first_match_witness :
    (∀ l ∈ winLines, ∀ p : Player, ¬ winsLine drawBoard l p)
    ∧ ∃ pre l post, winLines = pre ++ l :: post
        ∧ winsLine (List.replicate 9 none |>.set 0 Player.X |>.set 1 Player.X
            |>.set 2 Player.X) l Player.X
        ∧ [0, 1, 2] = [l.1, l.2.1, l.2.2]
        ∧ ∀ l' ∈ pre, ∀ p : Player, ¬ winsLine (List.replicate 9 none
            |>.set 0 Player.X |>.set 1 Player.X |>.set 2 Player.X) l' p :=
  ⟨(calculateWinner_first_match drawBoard).1.mp (by decide),
   (calculateWinner_first_match _).2 ⟨Player.X, [0, 1, 2]⟩ (by decide)⟩

lemma checkLineOld_eq_map (s : Board) (l : Nat × Nat × Nat) :
    checkLineOld s l = (Option.map WinnerResult.player ∘ checkLine s) l := by
  show checkLineOld s l = (checkLine s l).map WinnerResult.player
  cases h : s.getD l.1 none with
  | none =>
    rw [checkLineOld_none s l h, checkLine_none s l h]
    rfl
  | some p =>
    rw [checkLineOld_some s l p h, checkLine_some s l p h]
    by_cases hcond : s.getD l.2.1 none = some p ∧ s.getD l.2.2 none = some p
    · rw [if_pos hcond, if_pos hcond]
      rfl
    · rw [if_neg hcond, if_neg hcond]
      rfl

/-- C10: the older snapshot's `calculateWinner` and the current one agree:
they return `null` in exactly the same cases, and otherwise the old
function's player equals the `player` field of the new result object. -/
theorem calculateWinnerOld_agrees (s : Board) :
    (calculateWinnerOld s = none ↔ calculateWinner s = none)
    ∧ calculateWinnerOld s = (calculateWinner s).map WinnerResult.player := by
  have hmap : calculateWinnerOld s = (calculateWinner s).map WinnerResult.player := by
    rw [calculateWinnerOld, calculateWinner, List.map_findSome?]
    exact congrArg winLines.findSome? (funext (checkLineOld_eq_map s))
  refine ⟨?_, hmap⟩
  rw [hmap]
  exact Option.map_eq_none'

lemma take_succ_getLast? (l : List α) (c : Nat) (h : c < l.length) :
    (l.take (c + 1)).getLast? = l[c]? := by
  rw [List.getLast?_eq_getElem?, List.length_take_of_le (Nat.succ_le_of_lt h),
    Nat.succ_sub_one, List.getElem?_take_of_succ]

lemma take_succ_getLast?_eq_currentEntry (st : GameState)
    (hwf : st.stepNumber < st.history.length) :
    (st.history.take (st.stepNumber + 1)).getLast? = some (currentEntry st) := by
  rw [take_succ_getLast? _ _ hwf, List.getElem?_eq_getElem hwf]
  unfold currentEntry
  rw [List.getD_eq_getElem?_getD, List.getElem?_eq_getElem hwf]
  rfl

lemma applyMove_some (squares : Board) (i : Nat) (p : Player) (res : Board)
    (h : applyMove squares i p = some res) :
    res = squares.set i (some p)
    ∧ calculateWinner squares = none ∧ squares.getD i none = none := by
  unfold applyMove at h
  split at h
  · exact Option.noConfusion h
  · next hguard =>
    push_neg at hguard
    cases h
    exact ⟨rfl, Option.not_isSome_iff_eq_none.mp hguard.1,
      Option.not_isSome_iff_eq_none.mp hguard.2⟩

lemma handleClick_rejected (st : GameState) (i : Nat)
    (hwf : st.stepNumber < st.history.length)
    (h : applyMove (currentEntry st).squares i (nextMark st) = none) :
    handleClick st i = st := by
  simp only [handleClick, take_succ_getLast?_eq_currentEntry st hwf, h]

lemma handleClick_accepted (st : GameState) (i : Nat) (sq : Board)
    (hwf : st.stepNumber < st.history.length)
    (h : applyMove (currentEntry st).squares i (nextMark st) = some sq) :
    handleClick st i =
      { st with
        history := st.history.take (st.stepNumber + 1) ++
          [{ squares := sq,
             move := oneDimToTwoDimCoor i,
             player := some (nextMark st) }]
        stepNumber := st.stepNumber + 1
        xIsNext := !st.xIsNext } := by
  simp only [handleClick, take_succ_getLast?_eq_currentEntry st hwf, h]
  rw [List.length_take_of_le (Nat.succ_le_of_lt hwf)]

lemma decide_succ_mod_two (c : Nat) :
    decide ((c + 1) % 2 = 0) = !decide (c % 2 = 0) := by
  rcases Nat.mod_two_eq_zero_or_one c with h | h
  · have h1 : (c + 1) % 2 = 1 := by omega
    rw [h, h1]
    rfl
  · have h1 : (c + 1) % 2 = 0 := by omega
    rw [h, h1]
    rfl

lemma reachable_invariant (st : GameState) (h : Reachable st) :
    st.stepNumber < st.history.length
    ∧ st.xIsNext = decide (st.stepNumber % 2 = 0)
    ∧ st.history[0]? = some { squares := List.replicate 9 none, move := [], player := none }
    ∧ ∀ e ∈ st.history, e.squares.length = 9 := by
  induction h with
  | init => exact ⟨by decide, by decide, by decide, by decide⟩
  | @click st i hr hi ih =>
    obtain ⟨ihwf, ihpar, ihhead, ihlen⟩ := ih
    cases hc : applyMove (currentEntry st).squares i (nextMark st) with
    | none =>
      rw [handleClick_rejected st i ihwf hc]
      exact ⟨ihwf, ihpar, ihhead, ihlen⟩
    | some sq =>
      obtain ⟨hsq, -, -⟩ := applyMove_some _ _ _ _ hc
      have htklen : (st.history.take (st.stepNumber + 1)).length = st.stepNumber + 1 :=
        List.length_take_of_le (Nat.succ_le_of_lt ihwf)
      have hcurmem : currentEntry st ∈ st.history := by
        unfold currentEntry
        rw [List.getD_eq_getElem?_getD, List.getElem?_eq_getElem ihwf]
        exact List.getElem_mem ihwf
      rw [handleClick_accepted st i sq ihwf hc]
      dsimp only
      refine ⟨?_, ?_, ?_, ?_⟩
      · rw [List.length_append, htklen, List.length_singleton]
        omega
      · rw [ihpar, decide_succ_mod_two]
      · have h0 : 0 < (st.history.take (st.stepNumber + 1)).length := by
          rw [htklen]
          exact Nat.succ_pos _
        rw [List.getElem?_append_left h0,
          List.getElem?_take_of_lt (Nat.succ_pos st.stepNumber)]
        exact ihhead
      · intro e he
        rcases List.mem_append.mp he with htk | hnew
        · exact ihlen e (List.mem_of_mem_take htk)
        · rw [List.mem_singleton.mp hnew]
          dsimp only
          rw [hsq, List.length_set]
          exact ihlen (currentEntry st) hcurmem
  | @jump st s hr hs ih =>
    obtain ⟨-, -, ihhead, ihlen⟩ := ih
    exact ⟨hs, rfl, ihhead, ihlen⟩
  | @sort st hr ih =>
    exact ih

/-- C4: in every state reachable through the wired-up operations, the stored
`xIsNext` flag agrees with the parity of the cursor: it is `true` (player X
next) exactly when `stepNumber` is even, and consequently the mark the next
click places is X on even cursors and O on odd cursors — the flag never
desynchronizes from cursor parity. -/
theorem xIsNext_eq_cursor_parity (st : GameState) (h : Reachable st) :
    st.xIsNext = decide (st.stepNumber % 2 = 0)
    ∧ nextMark st = (if st.stepNumber % 2 = 0 then Player.X else Player.O) := by
  have hpar := (reachable_invariant st h).2.1
  refine ⟨hpar, ?_⟩
  rw [nextMark, hpar]
  by_cases hc : st.stepNumber % 2 = 0
  · rw [if_pos hc, if_pos]
    rw [hc]
    rfl
  · rw [if_neg hc, if_neg]
    intro habs
    exact hc (of_decide_eq_true habs)

/-- Witness for C4 at the reachable state after one click on cell 4. -/
theorem xIsNext_eq_cursor_parity_witness :
    (handleClick initialState 4).stepNumber = 1
    ∧ (handleClick initialState 4).xIsNext
        = decide ((handleClick initialState 4).stepNumber % 2 = 0) :=
  ⟨by decide,
   (xIsNext_eq_cursor_parity (handleClick initialState 4)
     (Reachable.click 4 Reachable.init (by decide))).1⟩

/-- C7: in every reachable state the history is non-empty — its first entry
is still the all-empty initial snapshot — and every snapshot stored in it has
length exactly 9. -/
theorem history_nonempty_and_boards_length9 (st : GameState) (h : Reachable st) :
    st.history ≠ []
    ∧ st.history[0]? = some { squares := List.replicate 9 none, move := [], player := none }
    ∧ ∀ e ∈ st.history, e.squares.length = 9 := by
  obtain ⟨hwf, -, hhead, hlen⟩ := reachable_invariant st h
  refine ⟨?_, hhead, hlen⟩
  intro hnil
  rw [hnil] at hwf
  exact Nat.not_lt_zero _ hwf

/-- Witness for C7 at the reachable state after a click on cell 0 followed by
a jump back to step 0. -/
theorem history_nonempty_and_boards_length9_witness :
    (jumpTo (handleClick initialState 0) 0).history ≠ [] :=
  (history_nonempty_and_boards_length9 (jumpTo (handleClick initialState 0) 0)
    (Reachable.jump 0 (Reachable.click 0 Reachable.init (by decide)) (by decide))).1

/-- C1: a move is rejected — `applyMove` returns `none`, and the click
handler leaves history and cursor as a silent no-op — if and only if the
target cell is non-empty or the board already has a winner. -/
theorem applyMove_rejected_iff (S : Board) (i : Nat) (p : Player) (st : GameState)
    (hS : S.length = 9) (hi : i < 9)
    (hwf : st.stepNumber < st.history.length) :
    (applyMove S i p = none ↔
      ((S.getD i none).isSome ∨ (calculateWinner S).isSome))
    ∧ (handleClick st i = st ↔
        (((currentEntry st).squares.getD i none).isSome
          ∨ (calculateWinner (currentEntry st).squares).isSome)) := by
  have key : ∀ (T : Board) (q : Player),
      applyMove T i q = none ↔
        ((T.getD i none).isSome ∨ (calculateWinner T).isSome) := by
    intro T q
    unfold applyMove
    split
    · next hg => exact iff_of_true rfl hg.symm
    · next hg =>
      exact iff_of_false (fun he => Option.noConfusion he) (fun hor => hg hor.symm)
  refine ⟨key S p, ?_⟩
  cases hc : applyMove (currentEntry st).squares i (nextMark st) with
  | none =>
    exact iff_of_true (handleClick_rejected st i hwf hc) ((key _ _).mp hc)
  | some sq =>
    refine iff_of_false ?_ ?_
    · intro habs
      have hstep := congrArg GameState.stepNumber habs
      rw [handleClick_accepted st i sq hwf hc] at hstep
      exact absurd hstep (Nat.succ_ne_self st.stepNumber)
    · intro hor
      have hnone := (key (currentEntry st).squares (nextMark st)).mpr hor
      rw [hnone] at hc
      exact Option.noConfusion hc

/-- Witness for C1: on the full drawn board every move is rejected, and the
rejection is a no-op on the game state reached after one move on cell 4 when
the user clicks cell 4 again. -/
theorem applyMove_rejected_iff_witness :
    applyMove drawBoard 0 Player.X = none
    ∧ handleClick (handleClick initialState 4) 4 = handleClick initialState 4 :=
  ⟨(applyMove_rejected_iff drawBoard 0 Player.X initialState
      (by decide) (by decide) (by decide)).1.mpr (by decide),
   (applyMove_rejected_iff drawBoard 4 Player.X (handleClick initialState 4)
      (by decide) (by decide) (by decide)).2.mpr (by decide)⟩

/-- The state after X plays cell 4 from the start. -/
def wSt1 : GameState := handleClick initialState 4

/-- The state after X plays cell 4 and O plays cell 1: history length 3,
cursor 2. -/
def wSt2 : GameState := handleClick wSt1 1

/-- `wSt2` rewound to step 0. -/
def wSt3 : GameState := jumpTo wSt2 0

/-- C3: recording a move truncates the history to entries `[0, cursor]`,
appends the new (snapshot, move record) entry, and sets the cursor to
`cursor + 1`, so the new history has length `cursor + 2` and every entry
formerly after the cursor is discarded. -/
theorem handleClick_truncate_append (st : GameState) (i : Nat) (sq : Board)
    (hwf : st.stepNumber < st.history.length)
    (hacc : applyMove (currentEntry st).squares i (nextMark st) = some sq) :
    (handleClick st i).history =
      st.history.take (st.stepNumber + 1) ++
        [{ squares := sq, move := oneDimToTwoDimCoor i, player := some (nextMark st) }]
    ∧ (handleClick st i).stepNumber = st.stepNumber + 1
    ∧ (handleClick st i).history.length = st.stepNumber + 2 := by
  rw [handleClick_accepted st i sq hwf hacc]
  refine ⟨rfl, rfl, ?_⟩
  dsimp only
  rw [List.length_append, List.length_take_of_le (Nat.succ_le_of_lt hwf),
    List.length_singleton]

/-- The snapshot produced by the recorded move of the C3 scenario: X on
cell 0 of the empty board. -/
def wMoveBoard : Board := (List.replicate 9 (none : Option Player)).set 0 (some Player.X)

/-- Witness for C3: Scenario 4 — from history length 3 at cursor 2, jump to
step 0 and record a move at cell 0: the result has history length 2 and
cursor 1. -/
theorem handleClick_truncate_append_witness :
    wSt2.history.length = 3 ∧ wSt2.stepNumber = 2 ∧ wSt3.stepNumber = 0
    ∧ (handleClick wSt3 0).history.length = wSt3.stepNumber + 2
    ∧ (handleClick wSt3 0).stepNumber = wSt3.stepNumber + 1
    ∧ wSt3.stepNumber + 2 = 2 :=
  ⟨by decide, by decide, by decide,
   (handleClick_truncate_append wSt3 0 wMoveBoard (by decide) (by decide)).2.2,
   (handleClick_truncate_append wSt3 0 wMoveBoard (by decide) (by decide)).2.1,
   by decide⟩

/-- C5 counterexample: `jumpTo` performs no range check.  From the initial
state, whose history has length 1, jumping to step 5 is out of range, yet the
cursor changes from 0 to 5 instead of being a no-op. -/
theorem jumpTo_out_of_range_not_rejected :
    initialState.history.length = 1
    ∧ initialState.stepNumber = 0
    ∧ (jumpTo initialState 5).stepNumber = 5 := by
  decide

/-- C5 amended: `jumpTo` sets the cursor to `step` (and the turn flag to the
parity of `step`) without modifying history contents, for every `step`
including out-of-range ones — the code performs no range check and never
rejects; only the presentation layer restricts calls to valid steps. -/
theorem jumpTo_sets_cursor (st : GameState) (s : Nat) :
    (jumpTo st s).history = st.history
    ∧ (jumpTo st s).stepNumber = s
    ∧ (jumpTo st s).xIsNext = decide (s % 2 = 0) :=
  ⟨rfl, rfl, rfl⟩

/-- C6: on success `applyMove` returns a snapshot holding `p`'s mark at `i`
and agreeing with the input everywhere else, and recording a click never
alters the entries already stored in history up to the cursor (the pure
embedding of copy-on-write: past snapshots stay intact). -/
theorem applyMove_success_frame (S : Board) (i : Nat) (p : Player) (S' : Board)
    (hS : S.length = 9) (hi : i < 9)
    (h : applyMove S i p = some S') :
    S'.getD i none = some p
    ∧ (∀ j : Nat, j ≠ i → S'.getD j none = S.getD j none)
    ∧ ∀ st : GameState, st.stepNumber < st.history.length →
        ∀ k : Nat, k ≤ st.stepNumber →
          (handleClick st i).history[k]? = st.history[k]? := by
  obtain ⟨hset, -, -⟩ := applyMove_some S i p S' h
  subst hset
  refine ⟨?_, ?_, ?_⟩
  · rw [List.getD_eq_getElem?_getD, List.getElem?_set_self (by omega : i < S.length)]
    rfl
  · intro j hj
    rw [List.getD_eq_getElem?_getD, List.getD_eq_getElem?_getD,
      List.getElem?_set_ne (Ne.symm hj)]
  · intro st hwf k hk
    cases hc : applyMove (currentEntry st).squares i (nextMark st) with
    | none => rw [handleClick_rejected st i hwf hc]
    | some sq =>
      rw [handleClick_accepted st i sq hwf hc]
      dsimp only
      have hlt : k < (st.history.take (st.stepNumber + 1)).length := by
        rw [List.length_take_of_le (Nat.succ_le_of_lt hwf)]
        omega
      rw [List.getElem?_append_left hlt,
        List.getElem?_take_of_lt (by omega : k < st.stepNumber + 1)]

/-- The snapshot produced by X playing cell 4 on the empty board. -/
def wFrameBoard : Board := (List.replicate 9 (none : Option Player)).set 4 (some Player.X)

/-- Witness for C6: Scenario 1 — X plays cell 4 on the empty board: cell 4
holds X, cell 0 is untouched, and the initial history entry is preserved. -/
theorem applyMove_success_frame_witness :
    wFrameBoard.getD 4 none = some Player.X
    ∧ wFrameBoard.getD 0 none = (List.replicate 9 (none : Option Player)).getD 0 none
    ∧ (handleClick initialState 4).history[0]? = initialState.history[0]? :=
  ⟨(applyMove_success_frame (List.replicate 9 none) 4 Player.X wFrameBoard
      (by decide) (by decide) (by decide)).1,
   (applyMove_success_frame (List.replicate 9 none) 4 Player.X wFrameBoard
      (by decide) (by decide) (by decide)).2.1 0 (by decide),
   (applyMove_success_frame (List.replicate 9 none) 4 Player.X wFrameBoard
      (by decide) (by decide) (by decide)).2.2 initialState (by decide) 0 (by decide)⟩
